import Mathlib

/-!
Shallow embedding of the Streamlit RAG pipeline found under
`GenAI/RAGs/project/streamlit_app/` (`config.py`, `utils.py`, `retriever.py`,
`app.py`, `generator.py`, `encoder.py`).

Modelling choices:

* Python strings are Lean `String`s; `str.split` and `str.strip` are modelled
  character-by-character (`splitNewline`, `pyStrip`) so that concrete examples
  reduce inside the kernel.
* The file system is a partial map `String → Option String`; `open` on a
  missing path raises, which the embedding renders as `Except.error`.
* Embedding vectors are `List ℚ`.  The square root inside
  `np.linalg.norm` / `torch.norm` is irrational in general, so the embedding
  is parametrised by the scalar function `sq : ℚ → ℚ` standing for the square
  root applied to the squared L2 norm; theorems that depend on actual
  square-root behaviour carry explicit local hypotheses about `sq` (for
  example `sq 1 = 1`, or `0 < x → 0 < sq x`).
* The external FAISS `IndexFlatIP` is modelled as the list of stored vectors;
  its exact `search` returns, best-first, `k` (score, label) pairs scored by
  inner product, and when `k` exceeds the number of stored vectors the
  remaining slots are filled with label `-1` and a sentinel score
  (FAISS fills unoccupied result slots with label `-1` and the lowest float
  value; `ipPadScore` models that sentinel, below every attainable score).
* `faiss.write_index` / `faiss.read_index` round-trip losslessly and are
  modelled as storing the index value itself on an abstract disk
  `String → Option FaissIndexFlatIP`.
* The pretrained DPR encoders, the GPT-2/BART tokenizers and models are
  opaque external functions gathered in environment structures (`EncEnv`,
  `GenEnv`); what the repository's own code controls — which model is called,
  with which tokenizer options, in which order, with what pre/post
  processing — is modelled explicitly.
-/

namespace StreamlitRag

/-- KB_PATH from `config.py`. -/
def KB_PATH : String := "data/knowledge_base.txt"

/-- FAISS_INDEX_PATH from `config.py`. -/
def FAISS_INDEX_PATH : String := "vector_store/faiss.index"

/-- Whitespace predicate of Python `str.strip()`: space, tab, newline,
carriage return, vertical tab, form feed. -/
def pyIsSpace (c : Char) : Bool :=
  c = ' ' || c = '\t' || c = '\n' || c = '\r' || c = Char.ofNat 11 || c = Char.ofNat 12

/-- Python `str.strip()`: drop leading and trailing whitespace. -/
def pyStrip (s : String) : String :=
  String.mk (((s.data.dropWhile pyIsSpace).reverse.dropWhile pyIsSpace).reverse)

/-- Character-level worker for Python `text.split(chr(10))`: splits at every
newline character, keeping empty pieces, so a text with `m` newlines yields
`m + 1` pieces. -/
def splitNlChars : List Char → List String
  | [] => [""]
  | c :: cs =>
      if c = '\n' then "" :: splitNlChars cs
      else
        match splitNlChars cs with
        | [] => [String.mk [c]]
        | r :: rs => String.mk (c :: r.data) :: rs

/-- Python `text.split` on the newline character, as used by
`load_paragraphs` in `utils.py`. -/
def splitNewline (s : String) : List String :=
  splitNlChars s.data

/-- Abstract file system: maps a path to the text content of the file at that
path, or `none` when no file exists there. -/
abbrev FileSys : Type := String → Option String

/-- Error raised by Python `open` on a missing path (`FileNotFoundError`). -/
inductive LoadErr
  | notFound
deriving DecidableEq

/-- load_paragraphs from `utils.py`: `open` the file (raising `notFound` when
the path is absent), read the whole text, split it on newlines, keep the
lines whose strip is non-empty, and return those lines stripped, in order. -/
def load_paragraphs (fs : FileSys) (filepath : String) : Except LoadErr (List String) :=
  match fs filepath with
  | none => Except.error LoadErr.notFound
  | some text =>
      Except.ok (((splitNewline text).filter (fun p => pyStrip p ≠ "")).map pyStrip)

/-- Dot product of two vectors, truncating at the shorter one (rows fed to it
always have equal length in the pipeline). -/
def dot : List ℚ → List ℚ → ℚ
  | a :: as, b :: bs => a * b + dot as bs
  | _, _ => 0

/-- Squared L2 norm of a vector. -/
def normSq (v : List ℚ) : ℚ := dot v v

/-- Divisor used by every normalization step of the pipeline: the square-root
stand-in `sq` applied to the squared L2 norm, modelling
`np.linalg.norm(v)` / `v.norm()`.  There is no zero guard, mirroring the
source. -/
def rowDivisor (sq : ℚ → ℚ) (v : List ℚ) : ℚ := sq (normSq v)

/-- Normalization `v / np.linalg.norm(v)` of one row, as performed in
`build_faiss_index`, `search`, `encode_paragraphs` and `encode_question`. -/
def normalizeRow (sq : ℚ → ℚ) (v : List ℚ) : List ℚ :=
  v.map (fun x => x / rowDivisor sq v)

/-- Model of `faiss.IndexFlatIP`: the declared dimension and the list of
stored vectors; similarity is inner product. -/
structure FaissIndexFlatIP where
  dim : Nat
  vecs : List (List ℚ)
deriving DecidableEq

/-- Largest finite `float32` value, `FLT_MAX = 2^128 - 2^104`, as a rational. -/
def fltMax : ℚ := 2 ^ 128 - 2 ^ 104

/-- Sentinel score FAISS reports in unoccupied result slots of an
inner-product search (the heap's neutral element, at or below `-FLT_MAX`);
any value below every attainable inner product is observationally equivalent
here. -/
def ipPadScore : ℚ := -fltMax

/-- Scores of a query against every stored vector: the pair
(inner product with vector `i`, label `i`), for `i` from `0` to `n - 1`. -/
def scoreAll (xs : List (List ℚ)) (q : List ℚ) : List (ℚ × Int) :=
  (List.range xs.length).map (fun i => (dot q (xs.getD i []), (i : Int)))

/-- Insertion step of the best-first ordering on (score, label) pairs:
higher score first, ties by lower label. -/
def insertDesc (p : ℚ × Int) : List (ℚ × Int) → List (ℚ × Int)
  | [] => [p]
  | q :: qs =>
      if q.1 < p.1 ∨ (p.1 = q.1 ∧ p.2 ≤ q.2) then p :: q :: qs
      else q :: insertDesc p qs

/-- Best-first ordering of (score, label) pairs, modelling the exhaustive
heap selection of `IndexFlatIP`. -/
def sortDesc : List (ℚ × Int) → List (ℚ × Int)
  | [] => []
  | p :: ps => insertDesc p (sortDesc ps)

/-- Exact inner-product k-nearest search of `faiss.IndexFlatIP`: the `k` best
(score, label) pairs best-first; when `k` exceeds the number of stored
vectors the remaining slots are filled with label `-1` and the sentinel
score. -/
def faissSearchIP (xs : List (List ℚ)) (q : List ℚ) (k : Nat) : List (ℚ × Int) :=
  (sortDesc (scoreAll xs q)).take k ++ List.replicate (k - xs.length) (ipPadScore, -1)

/-- build_faiss_index from `retriever.py`: take the dimension from the
matrix, L2-normalize every row (no zero guard), create an `IndexFlatIP` and
add the normalized rows. -/
def build_faiss_index (sq : ℚ → ℚ) (embeddings : List (List ℚ)) : FaissIndexFlatIP :=
  ⟨(embeddings.headD []).length, embeddings.map (normalizeRow sq)⟩

/-- Abstract disk for persisted FAISS indexes: maps a path to the index
serialized there, if any (`write_index`/`read_index` round-trip losslessly). -/
abbrev Disk : Type := String → Option FaissIndexFlatIP

/-- save_faiss_index from `retriever.py`: `faiss.write_index(index, path)`. -/
def save_faiss_index (index : FaissIndexFlatIP) (path : String) (disk : Disk) : Disk :=
  fun p => if p = path then some index else disk p

/-- load_faiss_index from `retriever.py`: return `faiss.read_index(path)`
when the path exists, `None` otherwise. -/
def load_faiss_index (disk : Disk) (path : String) : Option FaissIndexFlatIP :=
  match disk path with
  | some index => some index
  | none => none

/-- search from `retriever.py`: L2-normalize the (single-row) query embedding
(no zero guard), run the index's inner-product search and return the first
row of distances and of labels.  The Python default `top_k=3` is passed
explicitly at call sites. -/
def search (sq : ℚ → ℚ) (index : FaissIndexFlatIP) (query_embedding : List ℚ)
    (top_k : Nat) : List ℚ × List Int :=
  let qn := normalizeRow sq query_embedding
  let res := faissSearchIP index.vecs qn top_k
  (res.map Prod.fst, res.map Prod.snd)

/-- Outcome of the startup sequence of `app.py`. -/
inductive StartupOutcome
  | crashed (e : LoadErr)
  | haltedEmptyCorpus (msg : String)
  | running (paragraphs : List String)
deriving DecidableEq

/-- Message shown by `app.py` when the knowledge base yields no paragraphs. -/
def emptyCorpusMsg : String :=
  "❗ knowledge_base.txt is empty or missing. Please add content and restart."

/-- Startup sequence of `app.py`: `load_paragraphs(KB_PATH)` (an exception
propagates and crashes the app — there is no handler), then
`if not paragraphs: st.error(...); st.stop()`, else continue serving. -/
def appStartup (fs : FileSys) : StartupOutcome :=
  match load_paragraphs fs KB_PATH with
  | Except.error e => StartupOutcome.crashed e
  | Except.ok paragraphs =>
      if paragraphs.isEmpty then StartupOutcome.haltedEmptyCorpus emptyCorpusMsg
      else StartupOutcome.running paragraphs

/-- Error raised by Python list indexing when the index is out of range. -/
inductive AppErr
  | indexError
deriving DecidableEq

/-- Python list indexing `xs[i]`: a negative `i` counts from the end
(`i + len(xs)`); an index out of range after that adjustment raises
`IndexError`. -/
def listGetPy (xs : List String) (i : Int) : Except AppErr String :=
  let j : Int := if i < 0 then i + xs.length else i
  if h : 0 ≤ j ∧ j.toNat < xs.length then Except.ok (xs.get ⟨j.toNat, h.2⟩)
  else Except.error AppErr.indexError

/-- Context lookup of `app.py`:
`top_contexts = [paragraphs[i] for i in top_indices]`. -/
def topContexts (paragraphs : List String) (ids : List Int) :
    Except AppErr (List String) :=
  ids.mapM (listGetPy paragraphs)

/-- Opaque pretrained language model with its tokenizer, for `generator.py`:
`tokenize text truncOn maxLength` returns input ids, `generate inputs
maxNewTokens` returns output ids, `decode ids skipSpecial` returns text. -/
structure LM where
  tokenize : String → Bool → Option Nat → List Nat
  generate : List Nat → Nat → List Nat
  decode : List Nat → Bool → String

/-- Environment of `generator.py`: the GPT-2 and BART models (loaded from
the names `GPT2` and `BART` of `config.py`). -/
structure GenEnv where
  gpt2 : LM
  bart : LM

/-- Observable steps of `generate_answer`, recording the options passed to
the external library at each stage. -/
inductive GenStep
  | tokenizeStep (prompt : String) (truncation : Bool) (maxLength : Option Nat)
  | generateStep (maxNewTokens : Nat)
  | decodeStep (skipSpecialTokens : Bool)
deriving DecidableEq

/-- Error raised by `generate_answer` on an unrecognized model choice
(Python `ValueError`). -/
inductive GenErr
  | invalidModelChoice (msg : String)
deriving DecidableEq

/-- generate_answer from `generator.py`: dispatch on `model_type` — `"gpt2"`
builds the causal prompt, `"bart"` the seq2seq prompt, anything else raises
`ValueError` before any tokenization or generation happens — then tokenize
the prompt with `truncation=True, max_length=512`, generate up to 50 new
tokens and decode with special tokens skipped.  The returned trace lists the
library calls performed; the error branch performs none. -/
def generate_answer (env : GenEnv) (question context : String)
    (model_type : String) : Except GenErr (List GenStep × String) :=
  match (if model_type = "gpt2" then
           some ("Context: " ++ context ++ "\n\nQuestion: " ++ question ++ "\nAnswer:", env.gpt2)
         else if model_type = "bart" then
           some ("question: " ++ question ++ " context: " ++ context, env.bart)
         else none) with
  | none => Except.error (GenErr.invalidModelChoice "Model must be \x27gpt2\x27 or \x27bart\x27.")
  | some (prompt, m) =>
      let inputs := m.tokenize prompt true (some 512)
      let outputs := m.generate inputs 50
      Except.ok
        ([GenStep.tokenizeStep prompt true (some 512),
          GenStep.generateStep 50,
          GenStep.decodeStep true],
         m.decode outputs true)

/-- Arguments of one tokenizer invocation in `encoder.py`: the text and the
`truncation`, `padding`, `max_length` options. -/
structure TokCall where
  text : String
  truncation : Bool
  padding : Bool
  maxLength : Option Nat
deriving DecidableEq

/-- Environment of `encoder.py`: the DPR context and question tokenizers and
encoders (separate pretrained model instances); each encoder returns the
pooled `[CLS]` embedding row. -/
structure EncEnv where
  ctxTokenize : TokCall → List Nat
  ctxEncode : List Nat → List ℚ
  qTokenize : TokCall → List Nat
  qEncode : List Nat → List ℚ

/-- Tokenizer invocation made for each paragraph by `encode_paragraphs`:
`ctx_tokenizer(text, truncation=True, padding=True, max_length=256)`. -/
def ctx_tok_call (text : String) : TokCall := ⟨text, true, true, some 256⟩

/-- Tokenizer invocation made by `encode_question`: `q_tokenizer(question)`
with library defaults — no truncation, no padding, no maximum length. -/
def question_tok_call (question : String) : TokCall := ⟨question, false, false, none⟩

/-- encode_paragraphs from `encoder.py`: for each paragraph, tokenize with
truncation to 256 tokens, run the DPR context encoder, take the pooled
embedding row and divide it by its own L2 norm; the rows are returned in
input order. -/
def encode_paragraphs (env : EncEnv) (sq : ℚ → ℚ) (paragraphs : List String) :
    List (List ℚ) :=
  paragraphs.map (fun text =>
    normalizeRow sq (env.ctxEncode (env.ctxTokenize (ctx_tok_call text))))

/-- encode_question from `encoder.py`: tokenize the question with the
tokenizer's defaults (no truncation), run the DPR question encoder, take the
pooled embedding row and divide it by its own L2 norm. -/
def encode_question (env : EncEnv) (sq : ℚ → ℚ) (question : String) : List ℚ :=
  normalizeRow sq (env.qEncode (env.qTokenize (question_tok_call question)))

/-! Helper lemmas about the embedded operations. -/

/-- Dot product of a vector with itself is a sum of squares, hence
nonnegative. -/
lemma dot_self_nonneg (v : List ℚ) : 0 ≤ dot v v := by
  induction v with
  | nil => simp [dot]
  | cons a as ih => simp only [dot]; nlinarith [sq_nonneg a]

/-- Cauchy–Schwarz for the list dot product. -/
lemma dot_sq_le (u v : List ℚ) : dot u v ^ 2 ≤ dot u u * dot v v := by
  induction u generalizing v with
  | nil => simp [dot]
  | cons a as ih =>
    cases v with
    | nil => simp [dot]
    | cons b bs =>
      have hU := dot_self_nonneg as
      have hV := dot_self_nonneg bs
      have ih2 := ih bs
      simp only [dot]
      rcases eq_or_lt_of_le hU with hU0 | hUpos
      · have hd : dot as bs = 0 := by
          have h2 : dot as bs ^ 2 ≤ 0 := by nlinarith
          nlinarith [sq_nonneg (dot as bs)]
        rw [hd, ← hU0]
        nlinarith [sq_nonneg a, sq_nonneg b, sq_nonneg (a * b)]
      · nlinarith [sq_nonneg (a * dot as bs - b * dot as as),
          mul_nonneg (sq_nonneg a) (sub_nonneg.mpr ih2),
          mul_nonneg (le_of_lt hUpos) (sub_nonneg.mpr ih2)]

/-- Inserting into the best-first order permutes the extended list. -/
lemma insertDesc_perm (p : ℚ × Int) (l : List (ℚ × Int)) :
    (insertDesc p l).Perm (p :: l) := by
  induction l with
  | nil => simp [insertDesc]
  | cons q qs ih =>
    simp only [insertDesc]
    split
    · exact List.Perm.refl _
    · exact (ih.cons q).trans (List.Perm.swap p q qs)

/-- Best-first ordering permutes its input. -/
lemma sortDesc_perm (l : List (ℚ × Int)) : (sortDesc l).Perm l := by
  induction l with
  | nil => simp [sortDesc]
  | cons p ps ih => exact (insertDesc_perm p (sortDesc ps)).trans (ih.cons p)

/-- Best-first ordering preserves length. -/
lemma length_sortDesc (l : List (ℚ × Int)) : (sortDesc l).length = l.length :=
  (sortDesc_perm l).length_eq

/-- Membership is invariant under the best-first ordering. -/
lemma mem_sortDesc {p : ℚ × Int} {l : List (ℚ × Int)} :
    p ∈ sortDesc l ↔ p ∈ l :=
  (sortDesc_perm l).mem_iff

/-- Scoring yields one pair per stored vector. -/
lemma length_scoreAll (xs : List (List ℚ)) (q : List ℚ) :
    (scoreAll xs q).length = xs.length := by
  simp [scoreAll]

/-- Every scored pair is an inner product with a stored vector, labelled by
its position. -/
lemma mem_scoreAll {xs : List (List ℚ)} {q : List ℚ} {p : ℚ × Int}
    (hp : p ∈ scoreAll xs q) :
    ∃ i : Nat, i < xs.length ∧ p = (dot q (xs.getD i []), (i : Int)) := by
  simp only [scoreAll, List.mem_map, List.mem_range] at hp
  obtain ⟨i, hi, h⟩ := hp
  exact ⟨i, hi, h.symm⟩

/-- An inner-product search always returns exactly `k` slots. -/
lemma length_faissSearchIP (xs : List (List ℚ)) (q : List ℚ) (k : Nat) :
    (faissSearchIP xs q k).length = k := by
  simp only [faissSearchIP, List.length_append, List.length_take,
    length_sortDesc, length_scoreAll, List.length_replicate]
  omega

/-- Every returned slot is either a scored stored vector or the padding
sentinel. -/
lemma mem_faissSearchIP {xs : List (List ℚ)} {q : List ℚ} {k : Nat}
    {p : ℚ × Int} (hp : p ∈ faissSearchIP xs q k) :
    (∃ i : Nat, i < xs.length ∧ p = (dot q (xs.getD i []), (i : Int))) ∨
      p = (ipPadScore, -1) := by
  rcases List.mem_append.mp hp with h | h
  · exact Or.inl (mem_scoreAll (mem_sortDesc.mp (List.take_subset _ _ h)))
  · exact Or.inr (List.mem_replicate.mp h).2

/-- Python lookup at an in-range nonnegative index returns that element. -/
lemma listGetPy_ok_of_range (xs : List String) (i : Int) (h0 : 0 ≤ i)
    (h1 : i < (xs.length : Int)) :
    ∃ s, listGetPy xs i = Except.ok s := by
  have hnotneg : ¬ i < 0 := by omega
  have hj : 0 ≤ i ∧ i.toNat < xs.length := ⟨h0, by omega⟩
  refine ⟨xs.get ⟨i.toNat, hj.2⟩, ?_⟩
  simp only [listGetPy, if_neg hnotneg]
  rw [dif_pos hj]

/-- Python lookup at index `-1` of a non-empty list returns the last
element. -/
lemma listGetPy_neg_one (xs : List String) (h : xs ≠ []) :
    listGetPy xs (-1) = Except.ok (xs.getLast h) := by
  have hlen : 0 < xs.length := List.length_pos.mpr h
  have hcond : (0:Int) ≤ -1 + (xs.length : Int) ∧
      ((-1 : Int) + (xs.length : Int)).toNat < xs.length := by omega
  have htn : ((-1 : Int) + (xs.length : Int)).toNat = xs.length - 1 := by omega
  simp only [listGetPy, if_pos (by norm_num : (-1 : Int) < 0)]
  rw [dif_pos hcond]
  congr 1
  rw [List.getLast_eq_getElem, List.get_eq_getElem]
  congr 1

/-- When every requested index resolves, the context-lookup comprehension
succeeds and contains every resolved element. -/
lemma topContexts_ok (ps : List String) (ids : List Int)
    (h : ∀ i ∈ ids, ∃ s, listGetPy ps i = Except.ok s) :
    ∃ ctxs, topContexts ps ids = Except.ok ctxs ∧
      ∀ i ∈ ids, ∀ s, listGetPy ps i = Except.ok s → s ∈ ctxs := by
  induction ids with
  | nil => exact ⟨[], rfl, by simp⟩
  | cons a l ih =>
    obtain ⟨s, hs⟩ := h a (List.mem_cons_self a l)
    obtain ⟨ctxs, hc, hmem⟩ := ih (fun i hi => h i (List.mem_cons_of_mem a hi))
    refine ⟨s :: ctxs, ?_, ?_⟩
    · simp only [topContexts] at hc ⊢
      rw [List.mapM_cons, hs, hc]
      rfl
    · intro i hi t ht
      rcases List.mem_cons.mp hi with rfl | hi2
      · rw [hs] at ht
        cases ht
        exact List.mem_cons_self _ _
      · exact List.mem_cons_of_mem _ (hmem i hi2 t ht)

/-- Squared norm of an all-zero vector is zero. -/
lemma normSq_eq_zero_of_all_zero (v : List ℚ) (h : ∀ x ∈ v, x = 0) :
    normSq v = 0 := by
  induction v with
  | nil => simp [normSq, dot]
  | cons a as ih =>
    have ha := h a (List.mem_cons_self a as)
    have hr := ih (fun x hx => h x (List.mem_cons_of_mem a hx))
    simp only [normSq, dot] at hr ⊢
    rw [ha, hr]
    ring

/-- Squared norm of a vector with a nonzero entry is positive. -/
lemma normSq_pos_of_exists_nonzero (v : List ℚ) (h : ∃ x, x ∈ v ∧ x ≠ 0) :
    0 < normSq v := by
  induction v with
  | nil =>
    obtain ⟨x, hx, _⟩ := h
    cases hx
  | cons a as ih =>
    obtain ⟨x, hx, hxne⟩ := h
    have hr : 0 ≤ dot as as := dot_self_nonneg as
    rcases List.mem_cons.mp hx with rfl | hmem
    · have hpos : 0 < x * x := mul_self_pos.mpr hxne
      simp only [normSq, dot]
      nlinarith
    · have hpos := ih ⟨x, hmem, hxne⟩
      simp only [normSq, dot] at hpos ⊢
      nlinarith [sq_nonneg a]

/-- Normalizing an already unit vector leaves it unchanged, given that the
square-root stand-in fixes `1`. -/
lemma normalizeRow_of_unit (sq : ℚ → ℚ) (q : List ℚ) (hq : normSq q = 1)
    (hsq : sq 1 = 1) : normalizeRow sq q = q := by
  simp [normalizeRow, rowDivisor, hq, hsq]

/-! Claim theorems. -/

/-- C2: for every embedding matrix `E`, disk state, query vector and `k`,
searching the index obtained by saving `build_faiss_index E` to disk and
loading it back returns exactly the same scores and paragraph ids as
searching `build_faiss_index E` directly. -/
theorem c2_save_load_roundtrip (sq : ℚ → ℚ) (E : List (List ℚ)) (disk : Disk)
    (q : List ℚ) (k : Nat) :
    (load_faiss_index (save_faiss_index (build_faiss_index sq E) FAISS_INDEX_PATH disk)
        FAISS_INDEX_PATH).map (fun index => search sq index q k) =
      some (search sq (build_faiss_index sq E) q k) := by
  simp [load_faiss_index, save_faiss_index]

/-- C4: for every file system and every path at which no file exists, the
text loader fails with the not-found error instead of returning a value. -/
theorem c4_missing_file_raises (fs : FileSys) (filepath : String)
    (h : fs filepath = none) :
    load_paragraphs fs filepath = Except.error LoadErr.notFound := by
  simp [load_paragraphs, h]

/-- Witness for C4: on the file system with no files, loading the
knowledge-base path fails with the not-found error. -/
theorem c4_witness :
    ((fun _ : String => (none : Option String)) KB_PATH = none) ∧
    load_paragraphs (fun _ : String => (none : Option String)) KB_PATH =
      Except.error LoadErr.notFound :=
  ⟨rfl, c4_missing_file_raises (fun _ => none) KB_PATH rfl⟩

/-- C5: for every existing file, the loader returns exactly the non-blank
lines of the text, each stripped of surrounding whitespace, in file order
and without deduplication; in particular the result's length equals the
number of non-blank lines. -/
theorem c5_load_keeps_nonblank_lines (fs : FileSys) (filepath text : String)
    (h : fs filepath = some text) :
    ∃ l, load_paragraphs fs filepath = Except.ok l ∧
      l = ((splitNewline text).filter (fun p => pyStrip p ≠ "")).map pyStrip ∧
      l.length = (splitNewline text).countP (fun p => pyStrip p ≠ "") := by
  refine ⟨((splitNewline text).filter (fun p => pyStrip p ≠ "")).map pyStrip,
    ?_, rfl, ?_⟩
  · simp [load_paragraphs, h]
  · simp [List.countP_eq_length_filter]

/-- Witness for C5: a concrete file with two blank lines and a duplicated
line loads to the three stripped non-blank lines, duplicate kept. -/
theorem c5_witness :
    ((fun p : String => if p = KB_PATH then some "a\n \nb\nb" else none) KB_PATH =
      some "a\n \nb\nb") ∧
    (∃ l, load_paragraphs
        (fun p : String => if p = KB_PATH then some "a\n \nb\nb" else none) KB_PATH =
        Except.ok l ∧
      l = ((splitNewline "a\n \nb\nb").filter (fun p => pyStrip p ≠ "")).map pyStrip ∧
      l.length = (splitNewline "a\n \nb\nb").countP (fun p => pyStrip p ≠ "")) ∧
    load_paragraphs
        (fun p : String => if p = KB_PATH then some "a\n \nb\nb" else none) KB_PATH =
      Except.ok ["a", "b", "b"] :=
  ⟨rfl,
   c5_load_keeps_nonblank_lines
     (fun p : String => if p = KB_PATH then some "a\n \nb\nb" else none)
     KB_PATH "a\n \nb\nb" rfl,
   rfl⟩

/-- C6: for every environment, question, context and model choice outside
the enumerated set, the answer generator fails with the invalid-model-choice
error; the error result carries no step trace, so no tokenization or
generation call has been performed. -/
theorem c6_invalid_model_choice (env : GenEnv) (question context model_type : String)
    (h1 : model_type ≠ "gpt2") (h2 : model_type ≠ "bart") :
    generate_answer env question context model_type =
      Except.error (GenErr.invalidModelChoice "Model must be \x27gpt2\x27 or \x27bart\x27.") := by
  simp [generate_answer, h1, h2]

/-- Witness for C6: the model choice "unsupported" is rejected with the
invalid-model-choice error. -/
theorem c6_witness :
    (("unsupported" : String) ≠ "gpt2") ∧ (("unsupported" : String) ≠ "bart") ∧
    generate_answer
        ⟨⟨fun _ _ _ => [], fun _ _ => [], fun _ _ => ""⟩,
         ⟨fun _ _ _ => [], fun _ _ => [], fun _ _ => ""⟩⟩
        "q" "c" "unsupported" =
      Except.error (GenErr.invalidModelChoice "Model must be \x27gpt2\x27 or \x27bart\x27.") :=
  ⟨by decide, by decide,
   c6_invalid_model_choice
     ⟨⟨fun _ _ _ => [], fun _ _ => [], fun _ _ => ""⟩,
      ⟨fun _ _ _ => [], fun _ _ => [], fun _ _ => ""⟩⟩
     "q" "c" "unsupported" (by decide) (by decide)⟩

/-- C1 (amended): search always returns exactly `top_k` result slots — k is
not clamped to the corpus size — but at most `n` of them carry valid
(nonnegative) paragraph ids, where `n` is the number of indexed vectors; the
remaining slots hold the placeholder id `-1`. -/
theorem c1_search_returns_k_slots (sq : ℚ → ℚ) (index : FaissIndexFlatIP)
    (q : List ℚ) (k : Nat) :
    ((search sq index q k).2).length = k ∧
    ((search sq index q k).2.filter (fun i => (0:Int) ≤ i)).length ≤
      index.vecs.length ∧
    ∀ i ∈ (search sq index q k).2, i = -1 ∨ (0 ≤ i ∧ i < (index.vecs.length : Int)) := by
  refine ⟨?_, ?_, ?_⟩
  · simp [search, length_faissSearchIP]
  · simp only [search, faissSearchIP, List.map_append, List.filter_append,
      List.length_append, List.map_replicate]
    have hpad : (List.filter (fun i => decide ((0:Int) ≤ i))
        (List.replicate (k - index.vecs.length) (-1 : Int))).length = 0 := by
      simp [List.filter_eq_nil_iff, List.mem_replicate]
    rw [hpad]
    have hle : (List.filter (fun i => decide ((0:Int) ≤ i))
        (((sortDesc (scoreAll index.vecs (normalizeRow sq q))).take k).map Prod.snd)).length ≤
        (((sortDesc (scoreAll index.vecs (normalizeRow sq q))).take k).map Prod.snd).length :=
      List.length_filter_le _ _
    simp only [List.length_map, List.length_take, length_sortDesc, length_scoreAll] at hle
    omega
  · intro i hi
    simp only [search, List.mem_map] at hi
    obtain ⟨p, hp, rfl⟩ := hi
    rcases mem_faissSearchIP hp with ⟨j, hj, rfl⟩ | rfl
    · right
      refine ⟨Int.ofNat_nonneg j, ?_⟩
      show (j : Int) < (index.vecs.length : Int)
      exact_mod_cast hj
    · left
      rfl

/-- Counterexample for C1 as stated: on a 2-paragraph corpus,
`search(index, q, k=3)` returns 3 result ids — the third being the
placeholder `-1` — not at most 2. -/
theorem c1_counterexample :
    ((search (fun x => x) (build_faiss_index (fun x => x) [[(1:ℚ), 0], [0, 1]])
        [(1:ℚ), 0] 3).2).length = 3 ∧
    (search (fun x => x) (build_faiss_index (fun x => x) [[(1:ℚ), 0], [0, 1]])
        [(1:ℚ), 0] 3).2 = [0, 1, -1] := by
  norm_num [search, build_faiss_index, faissSearchIP, sortDesc, insertDesc,
    scoreAll, normalizeRow, rowDivisor, normSq, dot, List.range_succ,
    List.getD]

/-- C3 (amended): loading a file whose every line is blank or
whitespace-only yields the empty sequence (not an error) and the
orchestrator then halts at startup with an error message; loading a missing
file, however, fails with the not-found error, which propagates and crashes
the startup instead of producing the empty sequence. -/
theorem c3_blank_file_halts_missing_file_raises (fs : FileSys) (text : String)
    (hfile : fs KB_PATH = some text)
    (hblank : ∀ l ∈ splitNewline text, pyStrip l = "") :
    (load_paragraphs fs KB_PATH = Except.ok [] ∧
      appStartup fs = StartupOutcome.haltedEmptyCorpus emptyCorpusMsg) ∧
    ∀ fs2 : FileSys, fs2 KB_PATH = none →
      load_paragraphs fs2 KB_PATH = Except.error LoadErr.notFound ∧
        appStartup fs2 = StartupOutcome.crashed LoadErr.notFound := by
  have hfil : (splitNewline text).filter (fun p => decide (pyStrip p ≠ "")) = [] :=
    List.filter_eq_nil_iff.mpr (fun a ha => by simp [hblank a ha])
  have hload : load_paragraphs fs KB_PATH = Except.ok [] := by
    simp only [load_paragraphs, hfile, hfil, List.map_nil]
  refine ⟨⟨hload, ?_⟩, ?_⟩
  · simp [appStartup, hload]
  · intro fs2 h2
    refine ⟨by simp [load_paragraphs, h2], ?_⟩
    simp [appStartup, load_paragraphs, h2]

/-- Witness for C3 (amended): a knowledge base consisting of one newline and
two spaces loads to the empty sequence and halts the app with the
user-visible message, while a missing knowledge base crashes the startup. -/
theorem c3_witness :
    ((fun p : String => if p = KB_PATH then some "\n  " else none) KB_PATH =
      some "\n  ") ∧
    (∀ l ∈ splitNewline "\n  ", pyStrip l = "") ∧
    ((load_paragraphs (fun p : String => if p = KB_PATH then some "\n  " else none)
        KB_PATH = Except.ok [] ∧
      appStartup (fun p : String => if p = KB_PATH then some "\n  " else none) =
        StartupOutcome.haltedEmptyCorpus emptyCorpusMsg) ∧
     ∀ fs2 : FileSys, fs2 KB_PATH = none →
       load_paragraphs fs2 KB_PATH = Except.error LoadErr.notFound ∧
         appStartup fs2 = StartupOutcome.crashed LoadErr.notFound) :=
  ⟨rfl, by decide,
   c3_blank_file_halts_missing_file_raises
     (fun p : String => if p = KB_PATH then some "\n  " else none)
     "\n  " rfl (by decide)⟩

/-- Counterexample for C3 as stated: calling the loader on a missing file
does not yield an empty sequence — it fails with the not-found error, and
the orchestrator crashes rather than halting with its message. -/
theorem c3_counterexample :
    load_paragraphs (fun _ : String => (none : Option String)) KB_PATH =
      Except.error LoadErr.notFound ∧
    load_paragraphs (fun _ : String => (none : Option String)) KB_PATH ≠
      Except.ok [] ∧
    appStartup (fun _ : String => (none : Option String)) =
      StartupOutcome.crashed LoadErr.notFound :=
  ⟨rfl, fun h => Except.noConfusion h, rfl⟩

/-- C7 (amended): if every vector stored in the inner-product index is
unit-L2-normalized and the query is unit-normalized, then every score
returned by search in a slot carrying a valid (nonnegative) paragraph id
lies in the closed interval [-1, 1]; slots padded with id `-1` (present
whenever `k` exceeds the corpus size) instead carry the sentinel score,
which lies outside that interval. -/
theorem c7_valid_scores_in_unit_interval (sq : ℚ → ℚ) (index : FaissIndexFlatIP)
    (q : List ℚ) (k : Nat)
    (hrows : ∀ v ∈ index.vecs, normSq v = 1)
    (hq : normSq q = 1) (hsq : sq 1 = 1) :
    ∀ p ∈ ((search sq index q k).1).zip ((search sq index q k).2),
      0 ≤ p.2 → -1 ≤ p.1 ∧ p.1 ≤ 1 := by
  intro p hp hvalid
  simp only [search, List.zip_map', Prod.mk.eta, List.map_id'] at hp
  rw [normalizeRow_of_unit sq q hq hsq] at hp
  rcases mem_faissSearchIP hp with ⟨i, hi, rfl⟩ | rfl
  · have hx : index.vecs.getD i [] ∈ index.vecs := by
      rw [List.getD_eq_getElem _ _ hi]
      exact List.getElem_mem hi
    have hunit := hrows _ hx
    have hcs := dot_sq_le q (index.vecs.getD i [])
    simp only [normSq] at hq hunit
    rw [hq, hunit, one_mul] at hcs
    have habs : |dot q (index.vecs.getD i [])| ≤ 1 :=
      (sq_le_one_iff_abs_le_one _).mp hcs
    exact abs_le.mp habs
  · exfalso
    revert hvalid
    norm_num

/-- Counterexample for C7 as stated: over the unit corpus
[[1,0],[0,1]] with unit query [1,0] and k = 3, search also returns the
sentinel score of the padding slot, which is far below -1, so not every
returned score lies in [-1, 1]. -/
theorem c7_counterexample :
    (∀ v ∈ (build_faiss_index (fun x => x) [[(1:ℚ), 0], [0, 1]]).vecs,
        normSq v = 1) ∧
    normSq [(1:ℚ), 0] = 1 ∧
    ¬ (∀ d ∈ (search (fun x => x)
          (build_faiss_index (fun x => x) [[(1:ℚ), 0], [0, 1]]) [(1:ℚ), 0] 3).1,
        -1 ≤ d ∧ d ≤ 1) := by
  refine ⟨?_, ?_, ?_⟩
  · norm_num [build_faiss_index, normalizeRow, rowDivisor, normSq, dot]
  · norm_num [normSq, dot]
  · norm_num [search, build_faiss_index, faissSearchIP, sortDesc, insertDesc,
      scoreAll, normalizeRow, rowDivisor, normSq, dot, List.range_succ,
      List.getD, ipPadScore, fltMax]

/-- Witness for C7 (amended): the theorem applied to the unit corpus
[[1,0],[0,1]], the unit query [1,0] and k = 2, with the identity standing in
for the square root (exact on the value 1 that occurs). -/
theorem c7_witness :
    (∀ v ∈ (build_faiss_index (fun x => x) [[(1:ℚ), 0], [0, 1]]).vecs,
        normSq v = 1) ∧
    normSq [(1:ℚ), 0] = 1 ∧
    ((fun x : ℚ => x) 1 = 1) ∧
    ∀ p ∈ ((search (fun x => x)
          (build_faiss_index (fun x => x) [[(1:ℚ), 0], [0, 1]]) [(1:ℚ), 0] 2).1).zip
        ((search (fun x => x)
          (build_faiss_index (fun x => x) [[(1:ℚ), 0], [0, 1]]) [(1:ℚ), 0] 2).2),
      0 ≤ p.2 → -1 ≤ p.1 ∧ p.1 ≤ 1 :=
  ⟨by norm_num [build_faiss_index, normalizeRow, rowDivisor, normSq, dot],
   by norm_num [normSq, dot], rfl,
   c7_valid_scores_in_unit_interval (fun x => x)
     (build_faiss_index (fun x => x) [[(1:ℚ), 0], [0, 1]]) [(1:ℚ), 0] 2
     (by norm_num [build_faiss_index, normalizeRow, rowDivisor, normSq, dot])
     (by norm_num [normSq, dot]) rfl⟩

/-- C8 (amended): the question encoder shares the context encoder's
pooling-and-normalization contract for a single string — one pooled
embedding row divided by its own L2 norm, produced by a separate pretrained
model — but its tokenization differs from the context encoder's: the
question is tokenized without truncation and without a maximum length,
whereas each paragraph is tokenized with truncation to 256 tokens. -/
theorem c8_question_encoder_contract (env : EncEnv) (sq : ℚ → ℚ)
    (question : String) :
    encode_question env sq question =
      normalizeRow sq (env.qEncode (env.qTokenize (question_tok_call question))) ∧
    (question_tok_call question).truncation = false ∧
    (question_tok_call question).maxLength = none ∧
    ∀ text : String,
      encode_paragraphs env sq [text] =
        [normalizeRow sq (env.ctxEncode (env.ctxTokenize (ctx_tok_call text)))] ∧
      (ctx_tok_call text).truncation = true ∧
      (ctx_tok_call text).maxLength = some 256 :=
  ⟨rfl, rfl, rfl, fun _ => ⟨rfl, rfl, rfl⟩⟩

/-- Counterexample for C8 as stated: the tokenizer invocation the question
encoder performs carries `truncation = false` and no maximum length, so the
question is not tokenized with truncation to a fixed maximum length (unlike
the context encoder's invocation, which truncates to 256). -/
theorem c8_counterexample :
    encode_question ⟨fun _ => [], fun _ => [], fun _ => [], fun _ => []⟩
        (fun x => x) "How many vacation days?" =
      normalizeRow (fun x => x) ([] : List ℚ) ∧
    (question_tok_call "How many vacation days?").truncation = false ∧
    (question_tok_call "How many vacation days?").maxLength = none ∧
    ¬ ((question_tok_call "How many vacation days?").truncation = true ∧
        ∃ L, (question_tok_call "How many vacation days?").maxLength = some L) ∧
    (ctx_tok_call "How many vacation days?").truncation = true ∧
    (ctx_tok_call "How many vacation days?").maxLength = some 256 :=
  ⟨rfl, rfl, rfl, by simp [question_tok_call], rfl, rfl⟩

/-- C9: when fewer paragraphs are indexed than the requested `k`, search
returns the placeholder id `-1` in each missing slot, and the orchestrator's
context lookup `paragraphs[i]` maps `-1` through Python negative indexing to
the last paragraph of the corpus, silently including it in the retrieved
contexts instead of omitting it or failing. -/
theorem c9_pad_id_maps_to_last_paragraph (sq : ℚ → ℚ) (ps : List String)
    (E : List (List ℚ)) (q : List ℚ) (k : Nat)
    (hlen : E.length = ps.length) (hpos : 0 < ps.length) (hk : E.length < k) :
    (∃ valid : List Int,
        (search sq (build_faiss_index sq E) q k).2 =
          valid ++ List.replicate (k - E.length) (-1) ∧
        valid.length = E.length ∧
        ∀ i ∈ valid, 0 ≤ i ∧ i < (E.length : Int)) ∧
    (-1 : Int) ∈ (search sq (build_faiss_index sq E) q k).2 ∧
    ∃ ctxs, topContexts ps ((search sq (build_faiss_index sq E) q k).2) =
        Except.ok ctxs ∧
      ∃ hne : ps ≠ [], ps.getLast hne ∈ ctxs := by
  have hne : ps ≠ [] := List.length_pos.mp hpos
  have hveclen : (build_faiss_index sq E).vecs.length = E.length := by
    simp [build_faiss_index]
  have hsortlen :
      (sortDesc (scoreAll (build_faiss_index sq E).vecs (normalizeRow sq q))).length =
        E.length := by
    rw [length_sortDesc, length_scoreAll, hveclen]
  have htake :
      (sortDesc (scoreAll (build_faiss_index sq E).vecs (normalizeRow sq q))).take k =
        sortDesc (scoreAll (build_faiss_index sq E).vecs (normalizeRow sq q)) :=
    List.take_of_length_le (by omega)
  have hids : (search sq (build_faiss_index sq E) q k).2 =
      (sortDesc (scoreAll (build_faiss_index sq E).vecs (normalizeRow sq q))).map
          Prod.snd ++
        List.replicate (k - E.length) (-1) := by
    simp only [search, faissSearchIP, htake, List.map_append, List.map_replicate,
      hveclen]
  have hvalid : ∀ i ∈ (sortDesc
      (scoreAll (build_faiss_index sq E).vecs (normalizeRow sq q))).map Prod.snd,
      0 ≤ i ∧ i < (E.length : Int) := by
    intro i hi
    obtain ⟨p, hp, rfl⟩ := List.mem_map.mp hi
    obtain ⟨j, hj, rfl⟩ := mem_scoreAll (mem_sortDesc.mp hp)
    rw [hveclen] at hj
    refine ⟨Int.ofNat_nonneg j, ?_⟩
    show (j : Int) < (E.length : Int)
    exact_mod_cast hj
  have hmem1 : (-1 : Int) ∈ (search sq (build_faiss_index sq E) q k).2 := by
    rw [hids]
    exact List.mem_append_right _ (List.mem_replicate.mpr ⟨by omega, rfl⟩)
  have hres : ∀ i ∈ (search sq (build_faiss_index sq E) q k).2,
      ∃ s, listGetPy ps i = Except.ok s := by
    intro i hi
    rw [hids] at hi
    rcases List.mem_append.mp hi with h | h
    · obtain ⟨h0, h1⟩ := hvalid i h
      exact listGetPy_ok_of_range ps i h0 (by rw [hlen] at h1; exact h1)
    · obtain ⟨-, rfl⟩ := List.mem_replicate.mp h
      exact ⟨ps.getLast hne, listGetPy_neg_one ps hne⟩
  obtain ⟨ctxs, hok, hctx⟩ :=
    topContexts_ok ps ((search sq (build_faiss_index sq E) q k).2) hres
  refine ⟨⟨_, hids, by rw [List.length_map, hsortlen], hvalid⟩, hmem1,
    ctxs, hok, hne, ?_⟩
  exact hctx (-1) hmem1 (ps.getLast hne) (listGetPy_neg_one ps hne)

/-- Witness for C9: a 2-paragraph corpus searched with the app's default
k = 3; the returned ids end in the placeholder `-1` and the retrieved
contexts include the last paragraph a second time. -/
theorem c9_witness :
    (([[(1:ℚ), 0], [0, 1]] : List (List ℚ)).length =
      (["a", "b"] : List String).length) ∧
    (0 < (["a", "b"] : List String).length) ∧
    (([[(1:ℚ), 0], [0, 1]] : List (List ℚ)).length < 3) ∧
    ((∃ valid : List Int,
        (search (fun x => x)
            (build_faiss_index (fun x => x) [[(1:ℚ), 0], [0, 1]]) [(1:ℚ), 0] 3).2 =
          valid ++ List.replicate (3 - ([[(1:ℚ), 0], [0, 1]] : List (List ℚ)).length) (-1) ∧
        valid.length = ([[(1:ℚ), 0], [0, 1]] : List (List ℚ)).length ∧
        ∀ i ∈ valid, 0 ≤ i ∧ i < ((([[(1:ℚ), 0], [0, 1]] : List (List ℚ)).length : Int))) ∧
     (-1 : Int) ∈ (search (fun x => x)
         (build_faiss_index (fun x => x) [[(1:ℚ), 0], [0, 1]]) [(1:ℚ), 0] 3).2 ∧
     ∃ ctxs, topContexts ["a", "b"]
         ((search (fun x => x)
             (build_faiss_index (fun x => x) [[(1:ℚ), 0], [0, 1]]) [(1:ℚ), 0] 3).2) =
         Except.ok ctxs ∧
       ∃ hne : (["a", "b"] : List String) ≠ [],
         (["a", "b"] : List String).getLast hne ∈ ctxs) :=
  ⟨rfl, by decide, by decide,
   c9_pad_id_maps_to_last_paragraph (fun x => x) ["a", "b"]
     [[(1:ℚ), 0], [0, 1]] [(1:ℚ), 0] 3 rfl (by decide) (by decide)⟩

/-- C10: every normalization step of the pipeline divides by the L2 norm
through `rowDivisor` with no zero guard: building an index never raises (one
normalized row is produced for every input row), the divisor for an all-zero
row is exactly zero — the code divides by it anyway — and for every row with
some nonzero entry the divisor is nonzero, so the division is well defined.
The hypotheses pin the square-root stand-in to actual square-root behaviour
at the relevant points: it sends zero to zero and positives to positives. -/
theorem c10_normalization_unguarded (sq : ℚ → ℚ)
    (hsq0 : sq 0 = 0) (hsqpos : ∀ x : ℚ, 0 < x → 0 < sq x)
    (E : List (List ℚ)) :
    (build_faiss_index sq E).vecs.length = E.length ∧
    (∀ v : List ℚ, normalizeRow sq v = v.map (fun x => x / rowDivisor sq v)) ∧
    (∀ v : List ℚ, (∀ x ∈ v, x = 0) → rowDivisor sq v = 0) ∧
    (∀ v : List ℚ, (∃ x, x ∈ v ∧ x ≠ 0) → rowDivisor sq v ≠ 0) := by
  refine ⟨by simp [build_faiss_index], fun v => rfl, ?_, ?_⟩
  · intro v hv
    simp only [rowDivisor]
    rw [normSq_eq_zero_of_all_zero v hv, hsq0]
  · intro v hv
    exact ne_of_gt (hsqpos _ (normSq_pos_of_exists_nonzero v hv))

/-- Witness for C10: the identity function satisfies the square-root side
conditions, and the theorem applies to a concrete matrix whose first row is
all zeros and whose second row is nonzero. -/
theorem c10_witness :
    ((fun x : ℚ => x) 0 = 0) ∧
    (∀ x : ℚ, 0 < x → 0 < (fun x : ℚ => x) x) ∧
    ((build_faiss_index (fun x : ℚ => x) [[(0:ℚ), 0], [1, 0]]).vecs.length =
        ([[(0:ℚ), 0], [1, 0]] : List (List ℚ)).length ∧
      (∀ v : List ℚ, normalizeRow (fun x : ℚ => x) v =
        v.map (fun x => x / rowDivisor (fun x : ℚ => x) v)) ∧
      (∀ v : List ℚ, (∀ x ∈ v, x = 0) → rowDivisor (fun x : ℚ => x) v = 0) ∧
      (∀ v : List ℚ, (∃ x, x ∈ v ∧ x ≠ 0) → rowDivisor (fun x : ℚ => x) v ≠ 0)) :=
  ⟨rfl, fun _ hx => hx,
   c10_normalization_unguarded (fun x : ℚ => x) rfl (fun _ hx => hx)
     [[(0:ℚ), 0], [1, 0]]⟩

end StreamlitRag
